import Mathlib

/-!
Shallow embedding of the bulk-mailer script `src/streamlit_app.py` and proofs
about the claims of its specification.

Conventions of the embedding:
* A recipient row (a `dict` produced by `df.iloc[idx].to_dict()`) is a list of
  key/value pairs with the insertion-order semantics of Python dicts.
* Python functions that can raise are modelled with `Except String`; the error
  string stands for the exception message.
* The SMTP transport (`smtplib.SMTP ... send_message`) is external; it is
  modelled as an oracle `transport : Nat → Option String` giving, for each row
  index, `none` on success and `some e` when the transport block raises `e`.
* `time.sleep` calls are not modelled as real time; the batch-cooldown branch
  being taken is recorded as an explicit `Event.cooldown` in the run trace.
* Strings are processed at the `List Char` level; `String.mk`/`String.toList`
  mediate.  Python `str.strip`/`str.split` whitespace is modelled by
  `Char.isWhitespace` (the ASCII subset relevant here).
-/

namespace BulkMailer

/-- `EMAILS_PER_BATCH = 5` from the CONFIG section. -/
def EMAILS_PER_BATCH : Nat := 5

/-- `BATCH_COOLDOWN = 120` (seconds) from the CONFIG section. -/
def BATCH_COOLDOWN : Nat := 120

/-- `DELAY_BETWEEN_EMAILS = 22` (seconds) from the CONFIG section. -/
def DELAY_BETWEEN_EMAILS : Nat := 22

/-- The non-breaking-space character `\xa0`. -/
def nbspChar : Char := Char.ofNat 160

/-- The zero-width-space character `​`. -/
def zwspChar : Char := Char.ofNat 8203

/-- Single-quote character, built by code point to keep source strings plain. -/
def sqChar : Char := Char.ofNat 39

/-- Double-quote character, built by code point to keep source strings plain. -/
def dqChar : Char := Char.ofNat 34

/-- Single-quote as a one-character string. -/
def sqStr : String := String.mk [sqChar]

/-- Double-quote as a one-character string. -/
def dqStr : String := String.mk [dqChar]

/-- A recipient row: a Python dict from column name to cell value, with
insertion order (as produced by `df.iloc[idx].to_dict()`). -/
abbrev Row := List (String × String)

/-- `row.get(k)`: the value at key `k`, or `None` when absent. -/
def rowGet (row : Row) (k : String) : Option String :=
  ((row.find? (fun p => p.1 = k)).map Prod.snd)

/-- `row.get(k, d)`: the value at key `k`, or the default `d` when absent. -/
def rowGetD (row : Row) (k d : String) : String :=
  (rowGet row k).getD d

/-- Python dict update `{**row, k: v}` / `row[k] = v`: an existing key keeps
its position and gets the new value, a fresh key is appended at the end. -/
def rowSet (row : Row) (k v : String) : Row :=
  if row.any (fun p => p.1 = k) then
    row.map (fun p => if p.1 = k then (k, v) else p)
  else
    row ++ [(k, v)]

/-- Python `str.strip()`: drop whitespace from both ends. -/
def stripChars (cs : List Char) : List Char :=
  ((cs.dropWhile Char.isWhitespace).reverse.dropWhile Char.isWhitespace).reverse

/-- `clean_value` on a textual cell:
`val.replace("\xa0", " ").replace("​", "").strip()`.
(The non-string pass-through arm is irrelevant here: every value reaching the
helpers below is a string.) -/
def clean_value (s : String) : String :=
  String.mk (stripChars
    (((s.toList.map (fun c => if c = nbspChar then ' ' else c)).filter
      (fun c => c ≠ zwspChar))))

/-- Simplified model of `email.utils.parseaddr(s)[1]`: for a
`Display Name <addr>` form the part between the angle brackets, otherwise the
bare string itself is the address part. -/
def parseaddrAddr (s : String) : String :=
  if s.toList.contains '<' then
    String.mk (((s.toList.dropWhile (fun c => c ≠ '<')).drop 1).takeWhile
      (fun c => c ≠ '>'))
  else s

/-- `clean_email_address(raw_email)`: `None` for a falsy input (Python `None`
or the empty string); otherwise clean the value, extract the address part with
`parseaddr`, and keep it only if it contains an `@`. -/
def clean_email_address (raw_email : Option String) : Option String :=
  match raw_email with
  | none => none
  | some s =>
    if s = "" then none
    else
      let addr := parseaddrAddr (clean_value s)
      if addr.toList.contains '@' then some addr else none

/-- An accessor inside a replacement field: attribute access `.name` or
index access `[key]`, as parsed by CPython's field-name parser. -/
inductive Accessor
  | attr (name : String)
  | index (key : String)
deriving DecidableEq, Repr

/-- Split a replacement field at the first `!` or `:` into the field name and
the conversion/format-spec remainder (CPython documents that a literal `!` or
`:` cannot appear in a field name). -/
def fieldNameSplit : List Char → List Char × List Char
  | [] => ([], [])
  | c :: rest =>
    if c = '!' ∨ c = ':' then ([], c :: rest)
    else
      let r := fieldNameSplit rest
      (c :: r.1, r.2)

/-- Parse the accessor chain of a field name (everything after the first
name): `.attr` and `[key]` steps, with CPython's parse errors.  The second
argument is `none` between accessors, `some (inl acc)` inside an attribute
name and `some (inr acc)` inside an index (accumulated in reverse). -/
def accGo : List Char → Option (List Char ⊕ List Char) → Except String (List Accessor)
  | [], none => Except.ok []
  | [], some (Sum.inl acc) =>
    if acc = [] then Except.error "Empty attribute in format string"
    else Except.ok [Accessor.attr (String.mk acc.reverse)]
  | [], some (Sum.inr _) =>
    Except.error ("Missing " ++ sqStr ++ "]" ++ sqStr ++ " in format string")
  | '.' :: rest, none => accGo rest (some (Sum.inl []))
  | '[' :: rest, none => accGo rest (some (Sum.inr []))
  | _ :: _, none =>
    Except.error ("Only " ++ sqStr ++ "." ++ sqStr ++ " or " ++ sqStr ++ "[" ++ sqStr ++
      " may follow " ++ sqStr ++ "]" ++ sqStr ++ " in format field specifier")
  | '.' :: rest, some (Sum.inl acc) =>
    if acc = [] then Except.error "Empty attribute in format string"
    else (accGo rest (some (Sum.inl []))).map
      (fun as => Accessor.attr (String.mk acc.reverse) :: as)
  | '[' :: rest, some (Sum.inl acc) =>
    if acc = [] then Except.error "Empty attribute in format string"
    else (accGo rest (some (Sum.inr []))).map
      (fun as => Accessor.attr (String.mk acc.reverse) :: as)
  | ']' :: rest, some (Sum.inr acc) =>
    if acc = [] then Except.error "Empty attribute in format string"
    else (accGo rest none).map
      (fun as => Accessor.index (String.mk acc.reverse) :: as)
  | c :: rest, some (Sum.inl acc) => accGo rest (some (Sum.inl (c :: acc)))
  | c :: rest, some (Sum.inr acc) => accGo rest (some (Sum.inr (c :: acc)))

/-- Parse the `!conversion` and `:format_spec` suffix of a field, with
CPython's messages.  Called only on the output of `fieldNameSplit`, whose
second component is empty or starts with `!` or `:` (the final catch-all is
unreachable). -/
def parseConvSpec : List Char → Except String (Option Char × List Char)
  | [] => Except.ok (none, [])
  | ':' :: rest => Except.ok (none, rest)
  | ['!'] => Except.error ("unmatched " ++ sqStr ++ "\x7b" ++ sqStr ++ " in format spec")
  | ['!', c] => Except.ok (some c, [])
  | '!' :: c :: ':' :: rest => Except.ok (some c, rest)
  | '!' :: _ :: _ :: _ =>
    Except.error ("expected " ++ sqStr ++ ":" ++ sqStr ++ " after conversion specifier")
  | cs => Except.ok (none, cs)

/-- Decimal digits to a number (for index and width/precision parsing). -/
def digitsToNat (cs : List Char) : Nat :=
  cs.foldl (fun n c => n * 10 + (c.toNat - 48)) 0

/-- `repr(s)` / `ascii(s)` for the string values flowing through this
program, modelled as single-quote wrapping — faithful for printable ASCII
content without quotes or backslashes (the only shapes any claim touches). -/
def pyRepr (s : String) : String := sqStr ++ s ++ sqStr

/-- Apply a `!conversion` to a string value: `!s` is the identity on `str`,
`!r`/`!a` take the repr, anything else raises CPython's `ValueError`. -/
def applyConv (obj : String) : Char → Except String String
  | 's' => Except.ok obj
  | 'r' => Except.ok (pyRepr obj)
  | 'a' => Except.ok (pyRepr obj)
  | c => Except.error ("Unknown conversion specifier " ++ String.mk [c])

/-- Apply one accessor to a string value.  `[i]` with a numeric key indexes
the string (`IndexError` out of range); a non-numeric key is a `str` index
`TypeError`.  `.name` raises `AttributeError`: real `str` objects have no
data attributes (genuine method names would yield an address-dependent
bound-method repr, which no deterministic model can capture and no claim
exercises; the model raises the same `AttributeError` for them). -/
def applyAccessor (obj : String) : Accessor → Except String String
  | Accessor.attr name =>
    Except.error (sqStr ++ "str" ++ sqStr ++ " object has no attribute " ++
      sqStr ++ name ++ sqStr)
  | Accessor.index key =>
    if key.toList ≠ [] ∧ key.toList.all Char.isDigit then
      match obj.toList.get? (digitsToNat key.toList) with
      | some c => Except.ok (String.mk [c])
      | none => Except.error "string index out of range"
    else
      Except.error ("string indices must be integers, not " ++ sqStr ++ "str" ++ sqStr)

/-- Apply an accessor chain left to right. -/
def applyAccessors (obj : String) : List Accessor → Except String String
  | [] => Except.ok obj
  | a :: rest =>
    match applyAccessor obj a with
    | Except.error e => Except.error e
    | Except.ok obj2 => applyAccessors obj2 rest

/-- An alignment character of the format-spec mini-language. -/
def isAlignChar (c : Char) : Bool := c == '<' || c == '>' || c == '^' || c == '='

/-- Split the leading `[[fill]align]` of a format spec: a two-char prefix
whose second char aligns fixes fill+align, a single align char fixes align
with space fill. -/
def splitFillAlign : List Char → Char × Option Char × List Char
  | a :: b :: rest =>
    if isAlignChar b then (a, some b, rest)
    else if isAlignChar a then (' ', some a, b :: rest)
    else (' ', none, a :: b :: rest)
  | [a] => if isAlignChar a then (' ', some a, []) else (' ', none, [a])
  | [] => (' ', none, [])

/-- Truncate to the precision, then pad to the width with the fill character
per the alignment (`<` default for `str`; `^` centres with the extra fill on
the right, as CPython does). -/
def renderStr (fill : Char) (align : Option Char) (widthDigits : List Char)
    (precision : Option Nat) (s : String) : Except String String :=
  let s1 := match precision with
    | none => s
    | some p => String.mk (s.toList.take p)
  match widthDigits with
  | [] => Except.ok s1
  | _ :: _ =>
    let w := digitsToNat widthDigits
    let len := s1.toList.length
    if w ≤ len then Except.ok s1
    else
      let pad := w - len
      match align.getD '<' with
      | '>' => Except.ok (String.mk (List.replicate pad fill) ++ s1)
      | '^' => Except.ok (String.mk (List.replicate (pad / 2) fill) ++ s1 ++
          String.mk (List.replicate (pad - pad / 2) fill))
      | _ => Except.ok (s1 ++ String.mk (List.replicate pad fill))

/-- `format(s, spec)` for a `str` value: the
`[[fill]align][0][width][.precision][s]` fragment of the format-spec
mini-language, with CPython's `ValueError`s for the pieces `str` rejects
(`=` alignment, sign, `#`, grouping, non-`s` type).  A leading `0` with no
explicit fill zero-fills without changing the `str` default left alignment,
as CPython does. -/
def formatSpec (spec : List Char) (s : String) : Except String String :=
  let fa := splitFillAlign spec
  let fill0 := fa.1
  let align := fa.2.1
  let r1 := fa.2.2
  if align = some '=' then
    Except.error (sqStr ++ "=" ++ sqStr ++ " alignment not allowed in string format specifier")
  else if r1.head? = some '+' ∨ r1.head? = some '-' ∨ r1.head? = some ' ' then
    Except.error "Sign not allowed in string format specifier"
  else if r1.head? = some '#' then
    Except.error "Alternate form (#) not allowed in string format specifier"
  else
    let zf := if r1.head? = some '0' ∧ fill0 = ' ' then ('0', r1.drop 1) else (fill0, r1)
    let fill := zf.1
    let r2 := zf.2
    let widthDigits := r2.takeWhile Char.isDigit
    let r3 := r2.drop widthDigits.length
    if r3.head? = some ',' ∨ r3.head? = some '_' then
      Except.error ("Cannot specify " ++ sqStr ++ "," ++ sqStr ++ " with " ++
        sqStr ++ "s" ++ sqStr ++ ".")
    else
      match r3 with
      | '.' :: precRest =>
        let precDigits := precRest.takeWhile Char.isDigit
        if precDigits = [] then Except.error "Format specifier missing precision"
        else
          match precRest.drop precDigits.length with
          | [] => renderStr fill align widthDigits (some (digitsToNat precDigits)) s
          | ['s'] => renderStr fill align widthDigits (some (digitsToNat precDigits)) s
          | [c] => Except.error ("Unknown format code " ++ sqStr ++ String.mk [c] ++
              sqStr ++ " for object of type " ++ sqStr ++ "str" ++ sqStr)
          | _ => Except.error ("Invalid format specifier " ++ sqStr ++ String.mk spec ++
              sqStr ++ " for object of type " ++ sqStr ++ "str" ++ sqStr)
      | [] => renderStr fill align widthDigits none s
      | ['s'] => renderStr fill align widthDigits none s
      | [c] => Except.error ("Unknown format code " ++ sqStr ++ String.mk [c] ++
          sqStr ++ " for object of type " ++ sqStr ++ "str" ++ sqStr)
      | _ => Except.error ("Invalid format specifier " ++ sqStr ++ String.mk spec ++
          sqStr ++ " for object of type " ++ sqStr ++ "str" ++ sqStr)

/-- Process one replacement field (the text between the braces) against the
total lookup `m` (the `defaultdict(str, mapping)`), following CPython's
order: parse conversion/spec and the accessor chain, reject positional
fields (`format_map` passes no positional arguments), look up the first
name — total, an absent key yielding the empty string — then apply
accessors, then the conversion, then the format spec. -/
def interpField (m : String → String) (field : List Char) : Except String String :=
  match fieldNameSplit field with
  | (namePart, convSpecPart) =>
    match parseConvSpec convSpecPart with
    | Except.error e => Except.error e
    | Except.ok (conv, spec) =>
      match accGo (namePart.drop
          (namePart.takeWhile (fun c => !(c == '.' || c == '['))).length) none with
      | Except.error e => Except.error e
      | Except.ok accessors =>
        if (namePart.takeWhile (fun c => !(c == '.' || c == '['))).isEmpty ||
            (namePart.takeWhile (fun c => !(c == '.' || c == '['))).all Char.isDigit then
          Except.error "Format string contains positional fields"
        else
          match applyAccessors
              (m (String.mk (namePart.takeWhile (fun c => !(c == '.' || c == '[')))))
              accessors with
          | Except.error e => Except.error e
          | Except.ok obj =>
            match conv with
            | none => formatSpec spec obj
            | some c =>
              match applyConv obj c with
              | Except.error e => Except.error e
              | Except.ok obj2 => formatSpec spec obj2

/-- CPython's message for a replacement field left open at the end of the
template. -/
def errUnterminatedField : String :=
  "expected " ++ sqStr ++ "\x7d" ++ sqStr ++ " before end of string"

/-- Scanner core of `str.format_map` as invoked by `safe_format`: walk the
template, emitting literal text, doubled braces as literals, and replacement
fields — the text up to the matching `\x7d`, handed to `interpField` — and
raising (`Except.error`) on malformed template syntax, with CPython's
messages.  The second argument is `none` in literal text and `some acc`
while scanning a field (accumulated in reverse).  One documented limitation:
a nested replacement field inside a format spec (`\x7ba:\x7bw\x7d\x7d`) is not
modelled — any brace inside a field is reported with the field-name error;
no claim exercises nested specs. -/
def fmtGo (m : String → String) : List Char → Option (List Char) → Except String (List Char)
  | [], none => Except.ok []
  | [], some _ => Except.error errUnterminatedField
  | '{' :: '{' :: rest, none => (fmtGo m rest none).map (fun s => '{' :: s)
  | ['{'], none =>
    Except.error ("Single " ++ sqStr ++ "\x7b" ++ sqStr ++ " encountered in format string")
  | '{' :: rest, none => fmtGo m rest (some [])
  | '}' :: '}' :: rest, none => (fmtGo m rest none).map (fun s => '}' :: s)
  | '}' :: _, none =>
    Except.error ("Single " ++ sqStr ++ "\x7d" ++ sqStr ++ " encountered in format string")
  | c :: rest, none => (fmtGo m rest none).map (fun s => c :: s)
  | '}' :: rest, some acc =>
    match interpField m acc.reverse with
    | Except.error e => Except.error e
    | Except.ok v => (fmtGo m rest none).map (fun s => v.toList ++ s)
  | '{' :: _, some _ =>
    Except.error ("unexpected " ++ sqStr ++ "\x7b" ++ sqStr ++ " in field name")
  | c :: rest, some acc => fmtGo m rest (some (c :: acc))

/-- `safe_format(template, mapping) = template.format_map(defaultdict(str, mapping))`:
missing keys resolve to the empty string; malformed template syntax raises. -/
def safe_format (template : String) (mapping : Row) : Except String String :=
  (fmtGo (fun k => rowGetD mapping k "") template.toList none).map (fun l => String.mk l)

/-- A character allowed in a plain field key: no accessor, conversion or
spec markers. -/
def plainKeyChar (c : Char) : Bool :=
  !(c == '.') && !(c == '[') && !(c == ']') && !(c == '!') && !(c == ':')

/-- A plain field key: non-empty, not a positional (all-digits) name, and
free of accessor/conversion/spec markers — the shape for which field
processing reduces to a single total mapping lookup. -/
def plainKey (l : List Char) : Bool :=
  !l.isEmpty && !(l.all Char.isDigit) && l.all plainKeyChar

/-- A template is plain when it scans without syntax errors and every
replacement field is a plain key.  Mirrors the scanning structure of
`fmtGo`. -/
def plainGo : List Char → Option (List Char) → Bool
  | [], none => true
  | [], some _ => false
  | '{' :: '{' :: rest, none => plainGo rest none
  | ['{'], none => false
  | '{' :: rest, none => plainGo rest (some [])
  | '}' :: '}' :: rest, none => plainGo rest none
  | '}' :: _, none => false
  | _ :: rest, none => plainGo rest none
  | '}' :: rest, some acc => plainKey acc.reverse && plainGo rest none
  | '{' :: _, some _ => false
  | c :: rest, some acc => plainGo rest (some (c :: acc))

/-- `plainGo` at the `String` level, starting in literal-text mode. -/
def plainTemplate (t : String) : Bool := plainGo t.toList none

/-- `get_first_name(full_name)`: `""` for a falsy input, otherwise
`full_name.strip().split()[0]` — which raises `IndexError` when the stripped
string has no token (a non-empty, all-whitespace input). -/
def get_first_name (full_name : String) : Except String String :=
  if full_name = "" then Except.ok ""
  else
    match stripChars full_name.toList with
    | [] => Except.error "list index out of range"
    | c :: cs => Except.ok (String.mk ((c :: cs).takeWhile (fun d => !d.isWhitespace)))

/-- Line-ending normalisation in `text_to_html`:
`text.replace("\r\n", "\n").replace("\r", "\n")` (left-to-right,
non-overlapping, as Python `str.replace` chains behave on these patterns). -/
def normChars : List Char → List Char
  | [] => []
  | '\r' :: '\n' :: rest => '\n' :: normChars rest
  | '\r' :: rest => '\n' :: normChars rest
  | c :: rest => c :: normChars rest

/-- `html.escape(c)` for one character (quote=True, the default). -/
def escapeChar (c : Char) : List Char :=
  if c = '&' then "&amp;".toList
  else if c = '<' then "&lt;".toList
  else if c = '>' then "&gt;".toList
  else if c = dqChar then "&quot;".toList
  else if c = sqChar then "&#x27;".toList
  else [c]

/-- `html.escape(text)` over a whole string. -/
def htmlEscape (cs : List Char) : List Char :=
  (cs.map escapeChar).flatten

/-- `text.split("\n\n")` specialised to a two-newline separator: leftmost,
non-overlapping splitting; the result is the (head, tail) of the non-empty
list of fragments. -/
def splitParas : List Char → List Char × List (List Char)
  | [] => ([], [])
  | '\n' :: '\n' :: rest =>
    let r := splitParas rest
    ([], r.1 :: r.2)
  | c :: rest =>
    let r := splitParas rest
    (c :: r.1, r.2)

/-- The list of paragraph fragments produced by `text.split("\n\n")`. -/
def paragraphs (cs : List Char) : List (List Char) :=
  (splitParas cs).1 :: (splitParas cs).2

/-- `para.replace("\n", "<br>")`. -/
def brkChars (cs : List Char) : List Char :=
  (cs.map (fun c => if c = '\n' then "<br>".toList else [c])).flatten

/-- The opening tag of the styled paragraph block in `text_to_html`. -/
def pOpen : String :=
  "<p style=" ++ sqStr ++ "margin:0 0 16px 0; line-height:1.6;" ++ sqStr ++ ">"

/-- The list of HTML paragraph blocks that `text_to_html` concatenates. -/
def text_to_html_blocks (s : String) : List String :=
  (paragraphs (htmlEscape (normChars s.toList))).map
    (fun para => pOpen ++ String.mk (brkChars para) ++ "</p>")

/-- `text_to_html(text)`: normalise line endings, HTML-escape, split into
paragraphs on blank lines, turn inner newlines into `<br>`, wrap each
paragraph in the styled block, and concatenate. -/
def text_to_html (s : String) : String :=
  String.join (text_to_html_blocks s)

/-- The fixed f-string shell wrapped around `text_to_html(body_text)` to form
`html_body` in `send_bulk`. -/
def htmlShell (inner : String) : String :=
  "\n        <html>\n          <body style=" ++ dqStr ++ "font-family:" ++ sqStr ++
    "Times New Roman" ++ sqStr ++ ", serif; font-size:15px;" ++ dqStr ++
    ">\n            " ++ inner ++ "\n          </body>\n        </html>\n        "

/-- One observable step of a `send_bulk` run:
* `stopped idx`: the stop flag was observed at the top of iteration `idx`;
* `skipped idx`: row `idx` had no valid address and was passed over;
* `transportCall idx recip subject bodyText htmlBody`: the SMTP block was
  entered for row `idx` with the given rendered message;
* `sent idx` / `failed idx err`: outcome of that transport call;
* `cooldown idx`: the batch-cooldown sleep ran at the end of iteration `idx`. -/
inductive Event
  | stopped (idx : Nat)
  | skipped (idx : Nat)
  | transportCall (idx : Nat) (recip subject bodyText htmlBody : String)
  | sent (idx : Nat)
  | failed (idx : Nat) (err : String)
  | cooldown (idx : Nat)
deriving DecidableEq, Repr

/-- The row index an event refers to. -/
def Event.index : Event → Nat
  | .stopped idx => idx
  | .skipped idx => idx
  | .transportCall idx _ _ _ _ => idx
  | .sent idx => idx
  | .failed idx _ => idx
  | .cooldown idx => idx

/-- The five `st.session_state` fields the script initialises and mutates. -/
structure SessionState where
  stop_sending : Bool
  sent_count : Nat
  last_sent_index : Int
  resume_mode : Bool
  failed_rows : List Row
deriving DecidableEq, Repr

/-- The `defaults` dict the session state starts from. -/
def initialState : SessionState :=
  { stop_sending := false
    sent_count := 0
    last_sent_index := -1
    resume_mode := false
    failed_rows := [] }

/-- Outcome of a `send_bulk` call: the session state on exit, the ordered
trace of observable events, and `some e` when an uncaught exception `e`
aborted the call (`none` for a normal return). -/
structure SendResult where
  state : SessionState
  events : List Event
  aborted : Option String
deriving DecidableEq, Repr

/-- The body of `send_bulk`'s `for idx in range(start_index, total)` loop,
iterating over the suffix of the table from absolute index `idx`, carrying the
session state and the `sent_in_batch` counter.  Per iteration, in source
order: observe the stop flag; sanitise/validate the address (silently `continue`
when invalid); render the subject from the raw row; replace the row's name by
its first-name projection and render the body; enter the transport block
(success: bump `sent_count`, set `last_sent_index`, bump `sent_in_batch`;
exception: append the row plus `__error` to `failed_rows`); finally run the
batch-cooldown check.  The three rendering steps sit outside the `try`, so
their exceptions abort the whole call. -/
def sendLoopAux (subject_tpl body_tpl : String) (transport : Nat → Option String) :
    List Row → Nat → SessionState → Nat → SendResult
  | [], _, st, _ => { state := st, events := [], aborted := none }
  | row :: rest, idx, st, sent_in_batch =>
    if st.stop_sending then
      { state := st, events := [Event.stopped idx], aborted := none }
    else
      match clean_email_address (rowGet row "email") with
      | none =>
        let r := sendLoopAux subject_tpl body_tpl transport rest (idx + 1) st sent_in_batch
        { state := r.state, events := Event.skipped idx :: r.events, aborted := r.aborted }
      | some recip =>
        match safe_format subject_tpl row with
        | Except.error e => { state := st, events := [], aborted := some e }
        | Except.ok subject =>
          match get_first_name (rowGetD row "name" "") with
          | Except.error e => { state := st, events := [], aborted := some e }
          | Except.ok first_name =>
            match safe_format body_tpl (rowSet row "name" first_name) with
            | Except.error e => { state := st, events := [], aborted := some e }
            | Except.ok body_text =>
              let call := Event.transportCall idx recip subject body_text
                (htmlShell (text_to_html body_text))
              match transport idx with
              | none =>
                let st' := { st with
                  sent_count := st.sent_count + 1
                  last_sent_index := (idx : Int) }
                if sent_in_batch + 1 ≥ EMAILS_PER_BATCH then
                  let r := sendLoopAux subject_tpl body_tpl transport rest (idx + 1) st' 0
                  { state := r.state
                    events := call :: Event.sent idx :: Event.cooldown idx :: r.events
                    aborted := r.aborted }
                else
                  let r := sendLoopAux subject_tpl body_tpl transport rest (idx + 1) st'
                    (sent_in_batch + 1)
                  { state := r.state
                    events := call :: Event.sent idx :: r.events
                    aborted := r.aborted }
              | some e =>
                let st' := { st with
                  failed_rows := st.failed_rows ++ [rowSet row "__error" e] }
                if sent_in_batch ≥ EMAILS_PER_BATCH then
                  let r := sendLoopAux subject_tpl body_tpl transport rest (idx + 1) st' 0
                  { state := r.state
                    events := call :: Event.failed idx e :: Event.cooldown idx :: r.events
                    aborted := r.aborted }
                else
                  let r := sendLoopAux subject_tpl body_tpl transport rest (idx + 1) st'
                    sent_in_batch
                  { state := r.state
                    events := call :: Event.failed idx e :: r.events
                    aborted := r.aborted }

/-- `send_bulk(df_to_send, resume)`: start at `last_sent_index + 1` when
resuming, else at 0, and run the loop over the remaining rows with a fresh
`sent_in_batch = 0`. -/
def send_bulk (subject_tpl body_tpl : String) (transport : Nat → Option String)
    (df_to_send : List Row) (st : SessionState) (resume : Bool) : SendResult :=
  let start_index : Nat := if resume then (st.last_sent_index + 1).toNat else 0
  sendLoopAux subject_tpl body_tpl transport (df_to_send.drop start_index) start_index st 0

/-- The Stop button handler: set the stop flag. -/
def stopClick (st : SessionState) : SessionState :=
  { st with stop_sending := true }

/-- The Send button handler: reset count, cursor, failures, resume mode and
stop flag before a fresh run. -/
def sendClick (st : SessionState) : SessionState :=
  { st with
    sent_count := 0
    last_sent_index := -1
    failed_rows := []
    resume_mode := false
    stop_sending := false }

/-- The Resume button handler: set resume mode and clear the stop flag. -/
def resumeClick (st : SessionState) : SessionState :=
  { st with resume_mode := true, stop_sending := false }

/-- The state mutation the retry-failed handler performs before dispatching:
clear the stop flag and reset `last_sent_index` to `-1`. -/
def retryState (st : SessionState) : SessionState :=
  { st with stop_sending := false, last_sent_index := -1 }

/-- Pressing Resume and re-running: `send_bulk(df, resume=resume_mode)` after
the resume handler mutated the state. -/
def resumeRun (subject_tpl body_tpl : String) (transport : Nat → Option String)
    (df : List Row) (st : SessionState) : SendResult :=
  send_bulk subject_tpl body_tpl transport df (resumeClick st)
    (resumeClick st).resume_mode

/-- The retry-failed handler: mutate the state via `retryState`, then
`send_bulk(failed_df, resume=False)` over the snapshot of `failed_rows`. -/
def retryFailed (subject_tpl body_tpl : String) (transport : Nat → Option String)
    (st : SessionState) : SendResult :=
  send_bulk subject_tpl body_tpl transport st.failed_rows (retryState st) false

/-- Indices of the rows for which the transport block was entered, in trace
order. -/
def attemptsOf (events : List Event) : List Nat :=
  events.filterMap (fun e =>
    match e with
    | Event.transportCall idx _ _ _ _ => some idx
    | _ => none)

/-- Checker for the batch-pacing discipline of a trace: carrying the
`sent_in_batch` counter, every `cooldown` sits immediately after a `sent` that
raised the counter to exactly `EMAILS_PER_BATCH` (resetting it), and every
other `sent` keeps the counter below `EMAILS_PER_BATCH`. -/
def checkCooldown : Nat → List Event → Bool
  | _, [] => true
  | sib, Event.sent _ :: rest =>
    match rest with
    | Event.cooldown _ :: rest2 =>
      decide (sib + 1 = EMAILS_PER_BATCH) && checkCooldown 0 rest2
    | rest' => decide (sib + 1 < EMAILS_PER_BATCH) && checkCooldown (sib + 1) rest'
  | _, Event.cooldown _ :: _ => false
  | sib, Event.stopped _ :: rest => checkCooldown sib rest
  | sib, Event.skipped _ :: rest => checkCooldown sib rest
  | sib, Event.transportCall _ _ _ _ _ :: rest => checkCooldown sib rest
  | sib, Event.failed _ _ :: rest => checkCooldown sib rest

/-- The rendering pipeline of one row, as staged in `send_bulk`: subject from
the raw row, then the first-name projection, then the body from the projected
row. -/
def renderRow (subject_tpl body_tpl : String) (row : Row) :
    Except String (String × String) := do
  let subject ← safe_format subject_tpl row
  let first_name ← get_first_name (rowGetD row "name" "")
  let body_text ← safe_format body_tpl (rowSet row "name" first_name)
  pure (subject, body_text)

/-- A row the loop fully processes: a valid address and exception-free
rendering. -/
def processableRow (subject_tpl body_tpl : String) (row : Row) : Bool :=
  (clean_email_address (rowGet row "email")).isSome &&
    (renderRow subject_tpl body_tpl row).isOk

/-- `Except.map` does not change success/failure. -/
theorem isOk_map {α β ε : Type} (f : α → β) (e : Except ε α) :
    (e.map f).isOk = e.isOk := by
  cases e <;> rfl


/-- Every element of a list satisfies `p` iff every element left after
`dropWhile p` does. -/
theorem all_dropWhile_iff (p : Char → Bool) :
    ∀ cs : List Char, ((∀ c ∈ cs.dropWhile p, p c = true) ↔ ∀ c ∈ cs, p c = true)
  | [] => by simp
  | c :: cs => by
    by_cases h : p c = true
    · simpa [List.dropWhile_cons, h] using all_dropWhile_iff p cs
    · simp [List.dropWhile_cons, h]

/-- `stripChars` erases the whole list iff it was all whitespace. -/
theorem stripChars_eq_nil_iff (cs : List Char) :
    stripChars cs = [] ↔ ∀ c ∈ cs, c.isWhitespace = true := by
  unfold stripChars
  rw [List.reverse_eq_nil_iff, List.dropWhile_eq_nil_iff]
  constructor
  · intro h c hc
    exact (all_dropWhile_iff _ cs).mp (fun d hd => h d (List.mem_reverse.mpr hd)) c hc
  · intro h c hc
    exact (all_dropWhile_iff _ cs).mpr h c (List.mem_reverse.mp hc)

/-- C10: `get_first_name` does not return on every input: it raises
`IndexError` on a non-empty, all-whitespace name.  The counterexample: on
input `"   "` the code computes `"   ".strip().split()[0]` over an empty
token list. -/
theorem c10_counterexample :
    get_first_name "   " = Except.error "list index out of range" := rfl

/-- C10 (amended): `get_first_name` returns without raising exactly when the
input is empty or contains a non-whitespace character; the empty input gives
the empty string, and otherwise the result is the first whitespace-delimited
token, as on `"Al Pha"`. -/
theorem c10_amended (s : String) :
    (get_first_name s).isOk = (s.isEmpty || s.toList.any (fun c => !c.isWhitespace)) ∧
    get_first_name "" = Except.ok "" ∧
    get_first_name "Al Pha" = Except.ok "Al" := by
  refine ⟨?_, rfl, rfl⟩
  by_cases h : s = ""
  · subst h; rfl
  · have hne : s.isEmpty = false := by
      cases hb : s.isEmpty with
      | false => rfl
      | true => exact absurd ((String.isEmpty_iff s).mp hb) h
    rw [get_first_name, if_neg h]
    cases hstrip : stripChars s.toList with
    | nil =>
      have hall := (stripChars_eq_nil_iff s.toList).mp hstrip
      have hany : s.data.any (fun c => !c.isWhitespace) = false := by
        simp only [List.any_eq_false]
        intro c hc
        simp [hall c hc]
      simp [Except.isOk, Except.toBool, hne, hany]
    | cons c cs =>
      have hany : s.data.any (fun c => !c.isWhitespace) = true := by
        by_contra hfalse
        have hf : s.data.any (fun c => !c.isWhitespace) = false := by
          simpa using hfalse
        have hall : ∀ d ∈ s.toList, d.isWhitespace = true := by
          intro d hd
          have := (List.any_eq_false.mp hf) d hd
          simpa using this
        rw [(stripChars_eq_nil_iff s.toList).mpr hall] at hstrip
        exact List.noConfusion hstrip
      simp [Except.isOk, Except.toBool, hne, hany]

/-- A list all of whose elements satisfy `p` is its own `takeWhile p`. -/
theorem takeWhile_all (p : Char → Bool) (l : List Char) (h : l.all p = true) :
    l.takeWhile p = l := by
  induction l with
  | nil => rfl
  | cons c rest ih =>
    rw [List.all_cons, Bool.and_eq_true] at h
    simp [List.takeWhile_cons, h.1, ih h.2]

/-- A plain key char is neither a dot nor an opening bracket. -/
theorem plainKeyChar_not_dot_bracket (c : Char) (h : plainKeyChar c = true) :
    (!(c == '.' || c == '[')) = true := by
  rw [plainKeyChar] at h
  simp only [Bool.and_eq_true, Bool.not_eq_true', beq_eq_false_iff_ne] at h
  obtain ⟨⟨⟨⟨h1, h2⟩, h3⟩, h4⟩, h5⟩ := h
  simp [h1, h2]

/-- A field of plain-key characters has no conversion or spec split. -/
theorem fieldNameSplit_all (l : List Char) (h : l.all plainKeyChar = true) :
    fieldNameSplit l = (l, []) := by
  induction l with
  | nil => rfl
  | cons c rest ih =>
    rw [List.all_cons, Bool.and_eq_true] at h
    have hor : ¬ (c = '!' ∨ c = ':') := by
      rcases h with ⟨hc, -⟩
      intro hcase
      rcases hcase with rfl | rfl
      · exact absurd hc (by decide)
      · exact absurd hc (by decide)
    simp [fieldNameSplit, hor, ih h.2]

/-- The empty format spec is the identity on a string value. -/
theorem formatSpec_nil (s : String) : formatSpec [] s = Except.ok s := rfl

/-- Processing a plain field is exactly one total mapping lookup: no
accessors, no conversion, no spec, no exception. -/
theorem interpField_plain (m : String → String) (l : List Char)
    (h1 : l.isEmpty = false) (h2 : l.all Char.isDigit = false)
    (h3 : l.all plainKeyChar = true) :
    interpField m l = Except.ok (m (String.mk l)) := by
  have hsplit := fieldNameSplit_all l h3
  have htake : l.takeWhile (fun c => !(c == '.' || c == '[')) = l := by
    apply takeWhile_all
    rw [List.all_eq_true] at h3 ⊢
    exact fun c hc => plainKeyChar_not_dot_bracket c (h3 c hc)
  simp only [interpField, hsplit, parseConvSpec, htake, List.drop_length, accGo,
    h1, h2, Bool.false_or, Bool.false_eq_true, if_false, applyAccessors,
    formatSpec_nil]

/-- On a plain template, formatting never raises, whatever the mapping. -/
theorem fmtGo_plain_isOk (m : String → String) (cs : List Char)
    (mode : Option (List Char)) (h : plainGo cs mode = true) :
    (fmtGo m cs mode).isOk = true := by
  induction cs, mode using fmtGo.induct m with
  | case9 rest acc e herr =>
    simp only [plainGo, Bool.and_eq_true] at h
    obtain ⟨hk, -⟩ := h
    rw [plainKey] at hk
    simp only [Bool.and_eq_true, Bool.not_eq_true'] at hk
    obtain ⟨⟨hk1, hk2⟩, hk3⟩ := hk
    rw [interpField_plain m acc.reverse hk1 hk2 hk3] at herr
    exact Except.noConfusion herr
  | case10 rest acc v hok ih =>
    simp only [plainGo, Bool.and_eq_true] at h
    simp only [fmtGo, hok, isOk_map]
    exact ih h.2
  | case1 => rfl
  | _ => simp_all [fmtGo, plainGo, isOk_map]

/-- C8: `safe_format` does NOT resolve every absent key to the empty string
without raising — replacement fields carry CPython's accessor processing.
The counterexample `\x7ba[0]\x7d`: with an empty mapping the defaultdict
yields `""` and `""[0]` raises `IndexError`, while with `a ↦ "x"` the same
template succeeds — so formatting success even depends on the mapping. -/
theorem c8_counterexample :
    safe_format "\x7ba[0]\x7d" [] = Except.error "string index out of range" ∧
    safe_format "\x7ba[0]\x7d" [("a", "x")] = Except.ok "x" ∧
    (safe_format "\x7ba[0]\x7d" []).isOk = false ∧
    (safe_format "\x7ba[0]\x7d" [("a", "x")]).isOk = true :=
  ⟨rfl, rfl, rfl, rfl⟩

/-- C8 (amended): for every template whose replacement fields are plain
named keys (non-empty, not positional, no accessor/conversion/spec markers)
and every mapping, `safe_format` never raises — each `\x7bkey\x7d` is
substituted by the mapping's value, an absent key resolving to the empty
string (`rowGetD _ _ ""`), as the `Hi \x7bname\x7d` conjuncts show; in
particular `safe_format "Hi \x7bname\x7d" {} = "Hi "`. -/
theorem c8_amended (t : String) (m : Row) (h : plainTemplate t = true) :
    (safe_format t m).isOk = true ∧
    (∀ mm : Row, safe_format "Hi \x7bname\x7d" mm =
      Except.ok ("Hi " ++ rowGetD mm "name" "")) ∧
    safe_format "Hi \x7bname\x7d" [] = Except.ok "Hi " := by
  refine ⟨?_, ?_, rfl⟩
  · rw [safe_format, isOk_map]
    exact fmtGo_plain_isOk _ _ _ h
  · intro mm
    calc safe_format "Hi \x7bname\x7d" mm
        = Except.ok (String.mk ('H' :: 'i' :: ' ' :: ((rowGetD mm "name" "").toList ++ []))) :=
          rfl
      _ = Except.ok (String.mk ('H' :: 'i' :: ' ' :: (rowGetD mm "name" "").toList)) := by
          rw [List.append_nil]
      _ = Except.ok ("Hi " ++ rowGetD mm "name" "") := rfl

/-- Witness for `c8_amended`: the subject template of the end-to-end
scenario is plain, so it formats without raising against any mapping. -/
theorem c8_witness :
    plainTemplate "Hi \x7bname\x7d" = true ∧
    (safe_format "Hi \x7bname\x7d" [("email", "e@x.com")]).isOk = true :=
  ⟨rfl, (c8_amended "Hi \x7bname\x7d" [("email", "e@x.com")] rfl).1⟩

/-- Line-ending normalisation leaves no carriage return behind. -/
theorem normChars_no_cr (cs : List Char) : '\r' ∉ normChars cs := by
  induction cs using normChars.induct with
  | case1 => simp [normChars]
  | case2 rest ih => simp [normChars, ih]
  | case3 rest hne ih => simp [normChars, ih]
  | case4 c rest hne1 hne2 ih =>
    simp [normChars, ih]
    exact fun h => hne2 h.symm

/-- C9: `text_to_html` normalises line endings (no carriage return survives
normalisation, and CRLF/CR inputs render like their LF forms), HTML-escapes
text content (a `<script>` input renders as `&lt;script&gt;` and the raw
markup never appears), splits paragraphs on blank lines (two blocks for
`"Hello\n\nWorld"`), and turns a single inner newline into a `<br>` within
one block. -/
theorem c9_text_to_html (s : String) :
    '\r' ∉ normChars s.toList ∧
    text_to_html "Hello\r\nWorld" = text_to_html "Hello\nWorld" ∧
    text_to_html "Hello\rWorld" = text_to_html "Hello\nWorld" ∧
    "&lt;script&gt;".toList <:+: (text_to_html "a<script>b").toList ∧
    ¬ ("<script>".toList <:+: (text_to_html "a<script>b").toList) ∧
    text_to_html_blocks "Hello\n\nWorld" =
      [pOpen ++ "Hello" ++ "</p>", pOpen ++ "World" ++ "</p>"] ∧
    text_to_html_blocks "Hello\nWorld" = [pOpen ++ "Hello<br>World" ++ "</p>"] := by
  refine ⟨normChars_no_cr s.toList, rfl, rfl, ?_, ?_, by decide, by decide⟩ <;> decide

/-- A transport oracle on which every send succeeds. -/
def trOk : Nat → Option String := fun _ => none

/-- A transport oracle failing exactly on row 2. -/
def trBoom2 : Nat → Option String := fun i => if i = 2 then some "boom" else none

/-- A transport oracle on which every send raises. -/
def trFailAgain : Nat → Option String := fun _ => some "again"

/-- The three-row table of the end-to-end scenario. -/
def tableC1 : List Row :=
  [[("email", "a@x.com"), ("name", "Al Pha")],
   [("email", "bad"), ("name", "Be Ta")],
   [("email", "c@x.com"), ("name", "Ga Ma")]]

/-- The end-to-end scenario run: fresh send of `tableC1` with subject
`"Hi \x7bname\x7d"`, body `"Hello \x7bname\x7d"`, all transports succeeding. -/
def runC1 : SendResult :=
  send_bulk "Hi \x7bname\x7d" "Hello \x7bname\x7d" trOk tableC1 initialState false

/-- The subjects of the transport calls of a trace, in order. -/
def subjectsOf (events : List Event) : List String :=
  events.filterMap (fun e =>
    match e with
    | Event.transportCall _ _ subject _ _ => some subject
    | _ => none)

/-- C1: the claim's expected subjects are wrong.  In the end-to-end scenario
the two transport calls carry subjects `"Hi Al Pha"` and `"Hi Ga Ma"`, not
`"Hi Al"` and `"Hi Ga"`: `send_bulk` renders the subject from the raw row
(line 142), applying the first-name projection only to the body row. -/
theorem c1_counterexample :
    subjectsOf runC1.events = ["Hi Al Pha", "Hi Ga Ma"] ∧
    ("Hi Al Pha" ≠ "Hi Al" ∧ "Hi Ga Ma" ≠ "Hi Ga") := by
  exact ⟨rfl, by decide⟩

/-- C1 (amended): the scenario otherwise behaves as claimed — row 1 is
skipped with no record, exactly two transport calls happen, with subjects
rendered from the raw name (`"Hi Al Pha"`, `"Hi Ga Ma"`) and bodies from the
first-name projection (`"Hello Al"`, `"Hello Ga"`), and the run ends normally
with `sent_count = 2` and `failed_rows` empty. -/
theorem c1_amended :
    runC1 =
      { state :=
          { stop_sending := false
            sent_count := 2
            last_sent_index := 2
            resume_mode := false
            failed_rows := [] }
        events :=
          [Event.transportCall 0 "a@x.com" "Hi Al Pha" "Hello Al"
             (htmlShell (text_to_html "Hello Al")),
           Event.sent 0,
           Event.skipped 1,
           Event.transportCall 2 "c@x.com" "Hi Ga Ma" "Hello Ga"
             (htmlShell (text_to_html "Hello Ga")),
           Event.sent 2]
        aborted := none } := rfl

/-- The two-row table used to exhibit the behaviour on a malformed template. -/
def tableC2 : List Row :=
  [[("email", "a@x.com"), ("name", "Al")],
   [("email", "b@x.com"), ("name", "Bo")]]

/-- A fresh run of `tableC2` whose subject template has an unbalanced brace. -/
def runC2 : SendResult :=
  send_bulk "Hi \x7bname" "Hello" trOk tableC2 initialState false

/-- C2: a malformed template is NOT a per-row failure.  With the unbalanced
subject template `"Hi \x7bname"`, the very first row's rendering raises
outside the `try` block: the call aborts with the `ValueError`, nothing is
appended to `failed_rows`, no transport call happens, and row 1 is never
reached. -/
theorem c2_counterexample :
    runC2 =
      { state := initialState
        events := []
        aborted := some errUnterminatedField } ∧
    runC2.state.failed_rows = [] ∧ runC2.aborted ≠ none := by
  refine ⟨rfl, rfl, ?_⟩
  intro h
  exact Option.noConfusion h

/-- The six-row table used for the batch-pacing runs. -/
def table6 : List Row :=
  [[("email", "u0@x.com")], [("email", "u1@x.com")], [("email", "u2@x.com")],
   [("email", "u3@x.com")], [("email", "u4@x.com")], [("email", "u5@x.com")]]

/-- Shorthand for the transport-call event of the batch-pacing runs. -/
def callB (i : Nat) (addr : String) : Event :=
  Event.transportCall i addr "S" "B" (htmlShell (text_to_html "B"))

/-- The batch-pacing run: fresh send of `table6` where the transport fails on
row 2 and succeeds elsewhere. -/
def runC5 : SendResult := send_bulk "S" "B" trBoom2 table6 initialState false

/-- C5: the cooldown is not tied to CONSECUTIVE successes.  In `runC5` the
successes land on rows 0, 1, 3, 4, 5 — interrupted by the failure on row 2 —
yet the batch cooldown still fires after the success on row 5, because
`sent_in_batch` is not reset by a failure.  The trace refutes the claim that
sends not part of 5 consecutive successes cannot trigger the cooldown. -/
theorem c5_counterexample :
    runC5.events =
      [callB 0 "u0@x.com", Event.sent 0,
       callB 1 "u1@x.com", Event.sent 1,
       callB 2 "u2@x.com", Event.failed 2 "boom",
       callB 3 "u3@x.com", Event.sent 3,
       callB 4 "u4@x.com", Event.sent 4,
       callB 5 "u5@x.com", Event.sent 5,
       Event.cooldown 5] ∧
    Event.cooldown 5 ∈ runC5.events ∧ Event.failed 2 "boom" ∈ runC5.events := by
  refine ⟨rfl, ?_, ?_⟩ <;> decide

/-- A session state as left behind by an interrupted pass: cursor at row 7 of
the original table, one failed row recorded. -/
def stC6 : SessionState :=
  { stop_sending := false
    sent_count := 3
    last_sent_index := 7
    resume_mode := false
    failed_rows := [[("email", "a@x.com"), ("__error", "boom")]] }

/-- C6: retry-failed-only DOES touch `last_sent_index`.  The handler resets it
to `-1` before dispatching (line 198), so after a retry in which the row fails
again the cursor is `-1`, no longer `7` — its relationship to the original
table is destroyed, not preserved. -/
theorem c6_counterexample :
    stC6.last_sent_index = 7 ∧
    (retryFailed "S" "B" trFailAgain stC6).state.last_sent_index = -1 ∧
    (-1 : Int) ≠ 7 := by
  refine ⟨rfl, rfl, ?_⟩
  decide

/-- Every event of a loop run over the suffix starting at `idx` concerns a row
index at or beyond `idx`: the loop never looks back. -/
theorem sendLoopAux_index_ge (sub body : String) (tr : Nat → Option String)
    (rows : List Row) (idx : Nat) (st : SessionState) (sib : Nat) :
    ∀ e ∈ (sendLoopAux sub body tr rows idx st sib).events, idx ≤ e.index := by
  induction rows generalizing idx st sib with
  | nil => intro e he; simp [sendLoopAux] at he
  | cons row rest ih =>
    intro e he
    cases hstop : st.stop_sending with
    | true =>
      simp [sendLoopAux, hstop] at he
      subst he; simp [Event.index]
    | false =>
      cases hce : clean_email_address (rowGet row "email") with
      | none =>
        simp [sendLoopAux, hstop, hce] at he
        rcases he with rfl | he
        · simp [Event.index]
        · exact Nat.le_of_succ_le (ih (idx + 1) st sib e he)
      | some recip =>
        cases hs : safe_format sub row with
        | error e1 => simp [sendLoopAux, hstop, hce, hs] at he
        | ok subject =>
          cases hf : get_first_name (rowGetD row "name" "") with
          | error e1 => simp [sendLoopAux, hstop, hce, hs, hf] at he
          | ok first_name =>
            cases hb : safe_format body (rowSet row "name" first_name) with
            | error e1 => simp [sendLoopAux, hstop, hce, hs, hf, hb] at he
            | ok body_text =>
              cases htr : tr idx with
              | none =>
                by_cases hcd : sib + 1 ≥ EMAILS_PER_BATCH
                · simp [sendLoopAux, hstop, hce, hs, hf, hb, htr, hcd] at he
                  rcases he with rfl | rfl | rfl | he
                  · simp [Event.index]
                  · simp [Event.index]
                  · simp [Event.index]
                  · exact Nat.le_of_succ_le (ih (idx + 1) _ 0 e he)
                · simp [sendLoopAux, hstop, hce, hs, hf, hb, htr, hcd] at he
                  rcases he with rfl | rfl | he
                  · simp [Event.index]
                  · simp [Event.index]
                  · exact Nat.le_of_succ_le (ih (idx + 1) _ (sib + 1) e he)
              | some e2 =>
                by_cases hcd : sib ≥ EMAILS_PER_BATCH
                · simp [sendLoopAux, hstop, hce, hs, hf, hb, htr, hcd] at he
                  rcases he with rfl | rfl | rfl | he
                  · simp [Event.index]
                  · simp [Event.index]
                  · simp [Event.index]
                  · exact Nat.le_of_succ_le (ih (idx + 1) _ 0 e he)
                · simp [sendLoopAux, hstop, hce, hs, hf, hb, htr, hcd] at he
                  rcases he with rfl | rfl | he
                  · simp [Event.index]
                  · simp [Event.index]
                  · exact Nat.le_of_succ_le (ih (idx + 1) _ sib e he)

/-- C3: after the Resume handler runs (clearing the stop flag, as the first
conjunct shows), the re-invoked dispatch loop starts at
`last_sent_index + 1`: every event of the resumed run — in particular every
transport attempt — concerns a row index strictly beyond the old
`last_sent_index`, so no row at or below it is ever re-attempted. -/
theorem c3_resume (sub body : String) (tr : Nat → Option String)
    (table : List Row) (st : SessionState) :
    (resumeClick st).stop_sending = false ∧
    ((resumeRun sub body tr table st).events.all
      (fun e => decide (st.last_sent_index + 1 ≤ (e.index : Int)))) = true := by
  refine ⟨rfl, ?_⟩
  rw [List.all_eq_true]
  intro e he
  have he' : e ∈ (sendLoopAux sub body tr
      (table.drop (st.last_sent_index + 1).toNat)
      (st.last_sent_index + 1).toNat (resumeClick st) 0).events := he
  have h2 := sendLoopAux_index_ge sub body tr _ _ _ _ e he'
  rw [decide_eq_true_eq]
  calc st.last_sent_index + 1
      ≤ ((st.last_sent_index + 1).toNat : Int) := Int.self_le_toNat _
    _ ≤ (e.index : Int) := by exact_mod_cast h2

/-- C7: `clean_email_address` yields `None` on a falsy input (Python `None`
or `""`), any address it does return contains an `@`, and a row whose address
comes back `None` is silently skipped: the iteration emits only the skip
event, makes no transport attempt, records nothing, leaves every
session-state field untouched, and continues with the next row. -/
theorem c7_invalid_skip (sub body : String) (tr : Nat → Option String)
    (row : Row) (rest : List Row) (idx : Nat) (st : SessionState) (sib : Nat)
    (h1 : st.stop_sending = false)
    (h2 : clean_email_address (rowGet row "email") = none) :
    clean_email_address none = none ∧
    clean_email_address (some "") = none ∧
    (∀ r : Option String,
      ((clean_email_address r).all (fun a => a.toList.contains '@')) = true) ∧
    sendLoopAux sub body tr (row :: rest) idx st sib =
      { state := (sendLoopAux sub body tr rest (idx + 1) st sib).state
        events := Event.skipped idx :: (sendLoopAux sub body tr rest (idx + 1) st sib).events
        aborted := (sendLoopAux sub body tr rest (idx + 1) st sib).aborted } := by
  refine ⟨rfl, rfl, ?_, ?_⟩
  · intro r
    match r with
    | none => rfl
    | some v =>
      by_cases hv : v = ""
      · simp [clean_email_address, hv]
      · by_cases hat : '@' ∈ (parseaddrAddr (clean_value v)).data
        · simp [clean_email_address, hv, hat]
        · simp [clean_email_address, hv, hat]
  · simp [sendLoopAux, h1, h2]

/-- Witness for `c7_invalid_skip`: the one-row table whose address `"bad"`
has no `@` is skipped without any other effect. -/
theorem c7_witness :
    initialState.stop_sending = false ∧
    clean_email_address (rowGet [("email", "bad")] "email") = none ∧
    sendLoopAux "S" "B" trOk [[("email", "bad")]] 0 initialState 0 =
      { state := (sendLoopAux "S" "B" trOk [] 1 initialState 0).state
        events := Event.skipped 0 :: (sendLoopAux "S" "B" trOk [] 1 initialState 0).events
        aborted := (sendLoopAux "S" "B" trOk [] 1 initialState 0).aborted } :=
  ⟨rfl, rfl,
    (c7_invalid_skip "S" "B" trOk [("email", "bad")] [] 0 initialState 0 rfl rfl).2.2.2⟩

/-- C4: when the transport step raises for a row, the exception is caught:
the iteration emits the transport attempt and the failure, appends the row
plus its `__error` description to `failed_rows` — leaving `sent_count` and
`last_sent_index` untouched, as the last two conjuncts record — and the loop
continues with the next row; the run is not aborted. -/
theorem c4_transport_failure (sub body : String) (tr : Nat → Option String)
    (row : Row) (rest : List Row) (idx : Nat) (st : SessionState) (sib : Nat)
    (recip subject first_name body_text err : String)
    (h1 : st.stop_sending = false)
    (h2 : clean_email_address (rowGet row "email") = some recip)
    (h3 : safe_format sub row = Except.ok subject)
    (h4 : get_first_name (rowGetD row "name" "") = Except.ok first_name)
    (h5 : safe_format body (rowSet row "name" first_name) = Except.ok body_text)
    (h6 : tr idx = some err)
    (h7 : sib < EMAILS_PER_BATCH) :
    sendLoopAux sub body tr (row :: rest) idx st sib =
      { state := (sendLoopAux sub body tr rest (idx + 1)
          { st with failed_rows := st.failed_rows ++ [rowSet row "__error" err] } sib).state
        events := Event.transportCall idx recip subject body_text
            (htmlShell (text_to_html body_text)) ::
          Event.failed idx err ::
          (sendLoopAux sub body tr rest (idx + 1)
            { st with failed_rows := st.failed_rows ++ [rowSet row "__error" err] } sib).events
        aborted := (sendLoopAux sub body tr rest (idx + 1)
          { st with failed_rows := st.failed_rows ++ [rowSet row "__error" err] } sib).aborted } ∧
    ({ st with failed_rows := st.failed_rows ++ [rowSet row "__error" err] }
      : SessionState).sent_count = st.sent_count ∧
    ({ st with failed_rows := st.failed_rows ++ [rowSet row "__error" err] }
      : SessionState).last_sent_index = st.last_sent_index := by
  refine ⟨?_, rfl, rfl⟩
  have h7' : ¬ sib ≥ EMAILS_PER_BATCH := Nat.not_le.mpr h7
  simp [sendLoopAux, h1, h2, h3, h4, h5, h6, h7']

/-- Witness for `c4_transport_failure`: a valid one-row table on a transport
that raises `"again"`. -/
theorem c4_witness :
    initialState.stop_sending = false ∧
    clean_email_address (rowGet [("email", "a@x.com")] "email") = some "a@x.com" ∧
    safe_format "S" [("email", "a@x.com")] = Except.ok "S" ∧
    get_first_name (rowGetD [("email", "a@x.com")] "name" "") = Except.ok "" ∧
    safe_format "B" (rowSet [("email", "a@x.com")] "name" "") = Except.ok "B" ∧
    trFailAgain 0 = some "again" ∧
    0 < EMAILS_PER_BATCH ∧
    sendLoopAux "S" "B" trFailAgain [[("email", "a@x.com")]] 0 initialState 0 =
      { state := (sendLoopAux "S" "B" trFailAgain [] 1
          { initialState with failed_rows := initialState.failed_rows ++
            [rowSet [("email", "a@x.com")] "__error" "again"] } 0).state
        events := Event.transportCall 0 "a@x.com" "S" "B"
            (htmlShell (text_to_html "B")) ::
          Event.failed 0 "again" ::
          (sendLoopAux "S" "B" trFailAgain [] 1
            { initialState with failed_rows := initialState.failed_rows ++
              [rowSet [("email", "a@x.com")] "__error" "again"] } 0).events
        aborted := (sendLoopAux "S" "B" trFailAgain [] 1
          { initialState with failed_rows := initialState.failed_rows ++
            [rowSet [("email", "a@x.com")] "__error" "again"] } 0).aborted } :=
  ⟨rfl, rfl, rfl, rfl, rfl, rfl, by decide,
    (c4_transport_failure "S" "B" trFailAgain [("email", "a@x.com")] [] 0 initialState 0
      "a@x.com" "S" "" "B" "again" rfl rfl rfl rfl rfl rfl (by decide)).1⟩

/-- C2 (amended): a malformed template syntax error raised while rendering —
here, the subject template — aborts the whole `send_bulk` call: the exception
propagates uncaught (it is raised outside the per-row `try`), the offending
row is NOT appended to `failed_rows` (the state is returned unchanged), and
no further row is processed. -/
theorem c2_amended (sub body : String) (tr : Nat → Option String)
    (row : Row) (rest : List Row) (idx : Nat) (st : SessionState) (sib : Nat)
    (recip e : String)
    (h1 : st.stop_sending = false)
    (h2 : clean_email_address (rowGet row "email") = some recip)
    (h3 : safe_format sub row = Except.error e) :
    sendLoopAux sub body tr (row :: rest) idx st sib =
      { state := st, events := [], aborted := some e } := by
  simp [sendLoopAux, h1, h2, h3]

/-- Witness for `c2_amended`: the unbalanced subject template `"Hi \x7bname"`
aborts a two-row run at row 0. -/
theorem c2_witness :
    initialState.stop_sending = false ∧
    clean_email_address (rowGet [("email", "a@x.com"), ("name", "Al")] "email") =
      some "a@x.com" ∧
    safe_format "Hi \x7bname" [("email", "a@x.com"), ("name", "Al")] =
      Except.error errUnterminatedField ∧
    sendLoopAux "Hi \x7bname" "Hello" trOk tableC2 0 initialState 0 =
      { state := initialState
        events := []
        aborted := some errUnterminatedField } :=
  ⟨rfl, rfl, rfl,
    c2_amended "Hi \x7bname" "Hello" trOk [("email", "a@x.com"), ("name", "Al")]
      [[("email", "b@x.com"), ("name", "Bo")]] 0 initialState 0
      "a@x.com" errUnterminatedField rfl rfl rfl⟩

/-- A loop trace never begins with a cooldown event: each iteration's events
start with a stop, skip or transport-call marker. -/
theorem sendLoopAux_head_not_cooldown (sub body : String) (tr : Nat → Option String)
    (rows : List Row) (idx : Nat) (st : SessionState) (sib : Nat) :
    ∀ j t, (sendLoopAux sub body tr rows idx st sib).events ≠ Event.cooldown j :: t := by
  intro j t
  cases rows with
  | nil => simp [sendLoopAux]
  | cons row rest =>
    cases hstop : st.stop_sending with
    | true => simp [sendLoopAux, hstop]
    | false =>
      cases hce : clean_email_address (rowGet row "email") with
      | none => simp [sendLoopAux, hstop, hce]
      | some recip =>
        cases hs : safe_format sub row with
        | error e1 => simp [sendLoopAux, hstop, hce, hs]
        | ok subject =>
          cases hf : get_first_name (rowGetD row "name" "") with
          | error e1 => simp [sendLoopAux, hstop, hce, hs, hf]
          | ok first_name =>
            cases hb : safe_format body (rowSet row "name" first_name) with
            | error e1 => simp [sendLoopAux, hstop, hce, hs, hf, hb]
            | ok body_text =>
              cases htr : tr idx with
              | none =>
                by_cases hcd : sib + 1 ≥ EMAILS_PER_BATCH <;>
                  simp [sendLoopAux, hstop, hce, hs, hf, hb, htr, hcd]
              | some e2 =>
                by_cases hcd : sib ≥ EMAILS_PER_BATCH <;>
                  simp [sendLoopAux, hstop, hce, hs, hf, hb, htr, hcd]

/-- Unfolding step: a transport-call event is neutral for the checker. -/
theorem checkCooldown_call_cons (sib i : Nat) (a b c d : String) (l : List Event) :
    checkCooldown sib (Event.transportCall i a b c d :: l) = checkCooldown sib l := rfl

/-- Unfolding step: a failure event is neutral for the checker. -/
theorem checkCooldown_failed_cons (sib i : Nat) (er : String) (l : List Event) :
    checkCooldown sib (Event.failed i er :: l) = checkCooldown sib l := rfl

/-- Unfolding step: a skip event is neutral for the checker. -/
theorem checkCooldown_skipped_cons (sib i : Nat) (l : List Event) :
    checkCooldown sib (Event.skipped i :: l) = checkCooldown sib l := rfl

/-- Unfolding step: a success immediately followed by a cooldown checks iff
the counter reaches the batch size there and the tail checks from 0. -/
theorem checkCooldown_sent_cooldown (sib i j : Nat) (l : List Event) :
    checkCooldown sib (Event.sent i :: Event.cooldown j :: l) =
      (decide (sib + 1 = EMAILS_PER_BATCH) && checkCooldown 0 l) := rfl

/-- A success not followed by a cooldown checks iff the bumped counter stays
below the batch size and the tail checks with the bumped counter. -/
theorem checkCooldown_sent_cons (sib i : Nat) (l : List Event)
    (hlt : sib + 1 < EMAILS_PER_BATCH)
    (hhead : ∀ j t, l ≠ Event.cooldown j :: t)
    (hl : checkCooldown (sib + 1) l = true) :
    checkCooldown sib (Event.sent i :: l) = true := by
  cases l with
  | nil => simp [checkCooldown, hlt]
  | cons e' tl =>
    cases e' with
    | cooldown j => exact absurd rfl (hhead j tl)
    | stopped j => simp [checkCooldown, hlt]; exact hl
    | skipped j => simp [checkCooldown, hlt]; exact hl
    | transportCall j a b c d => simp [checkCooldown, hlt]; exact hl
    | sent j => simp [checkCooldown, hlt]; exact hl
    | failed j er => simp [checkCooldown, hlt]; exact hl

/-- The batch-pacing invariant of a loop run: starting below the batch size,
the trace satisfies `checkCooldown` — every cooldown sits immediately after
the success that filled the batch, with the counter reset. -/
theorem checkCooldown_sendLoopAux (sub body : String) (tr : Nat → Option String)
    (rows : List Row) (idx : Nat) (st : SessionState) (sib : Nat)
    (hsib : sib < EMAILS_PER_BATCH) :
    checkCooldown sib (sendLoopAux sub body tr rows idx st sib).events = true := by
  induction rows generalizing idx st sib with
  | nil => simp [sendLoopAux, checkCooldown]
  | cons row rest ih =>
    cases hstop : st.stop_sending with
    | true => simp [sendLoopAux, hstop, checkCooldown]
    | false =>
      cases hce : clean_email_address (rowGet row "email") with
      | none =>
        simp only [sendLoopAux, hstop, Bool.false_eq_true, if_false, hce,
          checkCooldown_skipped_cons]
        exact ih (idx + 1) st sib hsib
      | some recip =>
        cases hs : safe_format sub row with
        | error e1 => simp [sendLoopAux, hstop, hce, hs, checkCooldown]
        | ok subject =>
          cases hf : get_first_name (rowGetD row "name" "") with
          | error e1 => simp [sendLoopAux, hstop, hce, hs, hf, checkCooldown]
          | ok first_name =>
            cases hb : safe_format body (rowSet row "name" first_name) with
            | error e1 => simp [sendLoopAux, hstop, hce, hs, hf, hb, checkCooldown]
            | ok body_text =>
              cases htr : tr idx with
              | none =>
                by_cases hcd : sib + 1 ≥ EMAILS_PER_BATCH
                · have h5 : sib + 1 = EMAILS_PER_BATCH :=
                    Nat.le_antisymm (Nat.succ_le_of_lt hsib) hcd
                  simp only [sendLoopAux, hstop, Bool.false_eq_true, if_false,
                    hce, hs, hf, hb, htr]
                  rw [if_pos hcd, checkCooldown_call_cons, checkCooldown_sent_cooldown, h5]
                  have hdec : decide (EMAILS_PER_BATCH = EMAILS_PER_BATCH) = true := by decide
                  rw [hdec, Bool.true_and]
                  exact ih (idx + 1) _ 0 (by decide)
                · have hlt : sib + 1 < EMAILS_PER_BATCH := Nat.lt_of_not_le hcd
                  simp only [sendLoopAux, hstop, Bool.false_eq_true, if_false,
                    hce, hs, hf, hb, htr, if_neg hcd, checkCooldown_call_cons]
                  exact checkCooldown_sent_cons sib idx _ hlt
                    (sendLoopAux_head_not_cooldown sub body tr rest (idx + 1) _ _)
                    (ih (idx + 1) _ (sib + 1) hlt)
              | some e2 =>
                have hcd : ¬ sib ≥ EMAILS_PER_BATCH := Nat.not_le.mpr hsib
                simp only [sendLoopAux, hstop, Bool.false_eq_true, if_false,
                  hce, hs, hf, hb, htr, if_neg hcd, checkCooldown_call_cons,
                  checkCooldown_failed_cons]
                exact ih (idx + 1) _ sib hsib

/-- C5 (amended): in every invocation of the dispatch loop the cooldown fires
exactly when the `sent_in_batch` counter — which counts successes since the
start of the call or the last cooldown, and is NOT reset by failures or
skips — reaches `EMAILS_PER_BATCH = 5`: each cooldown sits immediately after
the success that made the count 5 (consecutive or not), the counter resets to
0 when it fires, and no other point of the trace triggers it. -/
theorem c5_amended (sub body : String) (tr : Nat → Option String)
    (table : List Row) (st : SessionState) (resume : Bool) :
    checkCooldown 0 (send_bulk sub body tr table st resume).events = true :=
  checkCooldown_sendLoopAux sub body tr _ _ st 0 (by decide)

/-- Unfolding step: a transport call contributes its index to the attempts. -/
theorem attemptsOf_call (i : Nat) (a b c d : String) (l : List Event) :
    attemptsOf (Event.transportCall i a b c d :: l) = i :: attemptsOf l := rfl

/-- Unfolding step: a success marker contributes no attempt. -/
theorem attemptsOf_sent (i : Nat) (l : List Event) :
    attemptsOf (Event.sent i :: l) = attemptsOf l := rfl

/-- Unfolding step: a failure marker contributes no attempt. -/
theorem attemptsOf_failed (i : Nat) (er : String) (l : List Event) :
    attemptsOf (Event.failed i er :: l) = attemptsOf l := rfl

/-- Unfolding step: a cooldown marker contributes no attempt. -/
theorem attemptsOf_cooldown (i : Nat) (l : List Event) :
    attemptsOf (Event.cooldown i :: l) = attemptsOf l := rfl

/-- When every row of the suffix is processable (valid address, exception-free
rendering) and the stop flag is down, the loop attempts exactly the rows of
the suffix, in order: one transport call per row, indices
`idx, idx+1, ..., idx+len-1`. -/
theorem sendLoopAux_attempts (sub body : String) (tr : Nat → Option String)
    (rows : List Row) :
    ∀ (idx : Nat) (st : SessionState) (sib : Nat),
      st.stop_sending = false →
      rows.all (processableRow sub body) = true →
      attemptsOf (sendLoopAux sub body tr rows idx st sib).events =
        List.range' idx rows.length := by
  induction rows with
  | nil => intro idx st sib hstop hall; simp [sendLoopAux, attemptsOf]
  | cons row rest ih =>
    intro idx st sib hstop hall
    rw [List.all_cons, Bool.and_eq_true] at hall
    obtain ⟨hrow, hrest⟩ := hall
    rw [processableRow, Bool.and_eq_true] at hrow
    obtain ⟨hsome, hrender⟩ := hrow
    cases hce : clean_email_address (rowGet row "email") with
    | none => rw [hce] at hsome; simp [Option.isSome] at hsome
    | some recip =>
      cases hs : safe_format sub row with
      | error e1 =>
        rw [renderRow, hs] at hrender
        exact Bool.noConfusion hrender
      | ok subject =>
        cases hf : get_first_name (rowGetD row "name" "") with
        | error e1 =>
          rw [renderRow, hs] at hrender
          have hr2 : ((get_first_name (rowGetD row "name" "") >>= fun first_name =>
              Prod.mk subject <$> safe_format body (rowSet row "name" first_name)).isOk)
              = true := hrender
          rw [hf] at hr2
          exact Bool.noConfusion hr2
        | ok first_name =>
          cases hb : safe_format body (rowSet row "name" first_name) with
          | error e1 =>
            rw [renderRow, hs] at hrender
            have hr2 : ((get_first_name (rowGetD row "name" "") >>= fun first_name =>
                Prod.mk subject <$> safe_format body (rowSet row "name" first_name)).isOk)
                = true := hrender
            rw [hf] at hr2
            have hr3 : ((Prod.mk subject <$>
                safe_format body (rowSet row "name" first_name)).isOk) = true := hr2
            rw [hb] at hr3
            exact Bool.noConfusion hr3
          | ok body_text =>
            simp only [List.length_cons]
            rw [List.range'_succ idx rest.length 1]
            cases htr : tr idx with
            | none =>
              by_cases hcd : sib + 1 ≥ EMAILS_PER_BATCH
              · simp only [sendLoopAux, hstop, Bool.false_eq_true, if_false,
                  hce, hs, hf, hb, htr]
                rw [if_pos hcd, attemptsOf_call, attemptsOf_sent, attemptsOf_cooldown]
                exact congrArg (List.cons idx) (ih (idx + 1) _ 0 (by simp [hstop]) hrest)
              · simp only [sendLoopAux, hstop, Bool.false_eq_true, if_false,
                  hce, hs, hf, hb, htr]
                rw [if_neg hcd, attemptsOf_call, attemptsOf_sent]
                exact congrArg (List.cons idx) (ih (idx + 1) _ (sib + 1) (by simp [hstop]) hrest)
            | some e2 =>
              by_cases hcd : sib ≥ EMAILS_PER_BATCH
              · simp only [sendLoopAux, hstop, Bool.false_eq_true, if_false,
                  hce, hs, hf, hb, htr]
                rw [if_pos hcd, attemptsOf_call, attemptsOf_failed, attemptsOf_cooldown]
                exact congrArg (List.cons idx) (ih (idx + 1) _ 0 (by simp [hstop]) hrest)
              · simp only [sendLoopAux, hstop, Bool.false_eq_true, if_false,
                  hce, hs, hf, hb, htr]
                rw [if_neg hcd, attemptsOf_call, attemptsOf_failed]
                exact congrArg (List.cons idx) (ih (idx + 1) _ sib (by simp [hstop]) hrest)

/-- C6 (amended): retry-failed-only dispatches over exactly the rows of the
failed-rows snapshot, in their existing order (when they are processable, one
transport attempt per row at positions `0, ..., n-1` of that snapshot) — but
the handler first resets `last_sent_index` to `-1` (and clears the stop
flag), so the cursor's relationship to the original full table is not
preserved. -/
theorem c6_amended (sub body : String) (tr : Nat → Option String)
    (st : SessionState)
    (h : st.failed_rows.all (processableRow sub body) = true) :
    attemptsOf (retryFailed sub body tr st).events =
      List.range' 0 st.failed_rows.length ∧
    (retryState st).last_sent_index = -1 ∧
    (retryState st).stop_sending = false := by
  refine ⟨?_, rfl, rfl⟩
  exact sendLoopAux_attempts sub body tr st.failed_rows 0 (retryState st) 0 rfl h

/-- A state holding one processable failed row, for the retry witness. -/
def retrySampleState : SessionState :=
  { stop_sending := false
    sent_count := 1
    last_sent_index := 4
    resume_mode := false
    failed_rows := [[("email", "a@x.com"), ("__error", "boom")]] }

/-- Witness for `c6_amended`: retrying one processable failed row attempts
exactly position 0 of the snapshot. -/
theorem c6_witness :
    retrySampleState.failed_rows.all (processableRow "S" "B") = true ∧
    attemptsOf (retryFailed "S" "B" trOk retrySampleState).events =
      List.range' 0 retrySampleState.failed_rows.length :=
  ⟨rfl, (c6_amended "S" "B" trOk retrySampleState rfl).1⟩

end BulkMailer
